import Mathlib

/-!
Shallow embedding of `src/lab 1/src/main.rs` (the WMI lab GUI tool).

The program is a single `eframe::App` implementation.  Each frame the
`update` method: lazily initializes the COM library and WMI connection
while `wmi_con` is `None` (returning early with an error label on
failure), then renders three buttons; a click on a button sets the
`active_data` discriminator, clears the corresponding result list, and
repopulates it from a synchronous WMI query (or pushes a single error
string on query failure); finally a scroll area renders the list
selected by `active_data`, or a placeholder prompt when it is `None`.

We embed one frame as a function from the application state plus the
frame's external inputs (the outcome of the init calls, which button was
clicked, the rows each WMI query would return) to the new state and a
record of what was rendered.  WMI itself is external to the repository,
so query outcomes are inputs (`Except` values), as is the outcome of
`CoInitializeEx` / `WMIConnection::with_namespace_path`.
-/

namespace WmiLab

/-- The `ActiveData` enum of the source: discriminator selecting which
result list the scroll area displays.  `#[derive(Default)]` makes `None`
the default variant. -/
inductive ActiveData where
  | None
  | EnvVars
  | SidCounts
  | BusInfo
deriving DecidableEq, Repr

/-- Rows of the `Win32_Environment` WMI class, as deserialized by the
source's `Win32Environment` struct. -/
structure Win32Environment where
  Name : String
  VariableValue : String
deriving DecidableEq, Repr

/-- Rows of the `Win32_Account` WMI class.  `SIDType` is a `u8` in the
source; it is only ever used as a grouping key, so we model it as `Nat`. -/
structure Win32Account where
  SIDType : Nat
  Caption : String
deriving DecidableEq, Repr

/-- Rows of the `Win32_PnPEntity` WMI class, per the source's `Win32Bus`. -/
structure Win32Bus where
  DeviceID : String
  Status : String
deriving DecidableEq, Repr

/-- The `LabApp` struct.  The real `COMLibrary` and `WMIConnection`
handles are opaque foreign objects; we keep only their presence
(`com_lib : Option Unit`) and an identity tag for the connection
(`wmi_con : Option Nat`) so that replacement of the handle would be
observable. -/
structure LabApp where
  com_lib : Option Unit
  wmi_con : Option Nat
  env_vars : List String
  sid_counts : List String
  bus_info : List String
  active_data : ActiveData
deriving DecidableEq, Repr

/-- `LabApp::default()` from `#[derive(Default)]`: both handles absent,
all three lists empty, `active_data = ActiveData::None`. -/
def LabApp.default : LabApp :=
  { com_lib := none, wmi_con := none, env_vars := [], sid_counts := [],
    bus_info := [], active_data := ActiveData.None }

/-- The three command buttons rendered by the horizontal group. -/
inductive Button where
  | envVars
  | sidCounts
  | busInfo
deriving DecidableEq, Repr

/-- The `ActiveData` variant a button click selects. -/
def Button.category : Button → ActiveData
  | .envVars => ActiveData.EnvVars
  | .sidCounts => ActiveData.SidCounts
  | .busInfo => ActiveData.BusInfo

/-- Outcome of the foreign calls inside `init_wmi`: `CoInitializeEx` can
fail (`comFail`, before `com_lib` is set), and
`WMIConnection::with_namespace_path` can fail (`connFail`, after
`com_lib` is set, propagated by `?` before `wmi_con` is assigned).  On
success the new connection is tagged with a handle identity. -/
inductive InitOutcome where
  | comFail (e : String)
  | connFail (e : String)
  | ok (handle : Nat)
deriving DecidableEq, Repr

/-- Everything external that can influence one frame: the init outcome
(consulted only while `wmi_con` is none), which button (if any) the user
clicked this frame, and the result each of the three WMI queries would
return if issued. -/
structure FrameInput where
  initOutcome : InitOutcome
  click : Option Button
  envResult : Except String (List Win32Environment)
  sidResult : Except String (List Win32Account)
  busResult : Except String (List Win32Bus)

/-- `LabApp::init_wmi`: on COM failure returns the error with the state
untouched; on connection failure `com_lib` has already been set; on
success both `com_lib` and `wmi_con` are set. -/
def init_wmi (s : LabApp) (o : InitOutcome) : LabApp × Except String Unit :=
  match o with
  | .comFail e => (s, Except.error e)
  | .connFail e => ({ s with com_lib := some () }, Except.error e)
  | .ok h => ({ s with com_lib := some (), wmi_con := some h }, Except.ok ())

/-- `format!("{}: {}", env.Name, env.VariableValue)`. -/
def formatEnv (env : Win32Environment) : String :=
  env.Name ++ ": " ++ env.VariableValue

/-- `format!("Тип {}: {}", k, v)`. -/
def formatSid (k v : Nat) : String :=
  "Тип " ++ toString k ++ ": " ++ toString v

/-- `format!("ID: {}, Статус: {}", bus.DeviceID, bus.Status)`. -/
def formatBus (bus : Win32Bus) : String :=
  "ID: " ++ bus.DeviceID ++ ", Статус: " ++ bus.Status

/-- `format!("Ошибка: {e}")`, pushed as the single entry on query failure. -/
def errorEntry (e : String) : String :=
  "Ошибка: " ++ e

/-- The `SIDType` projection of the returned accounts, in row order. -/
def sidKeys (accounts : List Win32Account) : List Nat :=
  accounts.map (fun a => a.SIDType)

/-- Contents of the `HashMap` `counts` built by the SID handler: one
`(key, multiplicity)` pair per distinct `SIDType` among the returned
accounts.  Rust `HashMap` iteration order is unspecified; we fix the
order given by `List.dedup` (the properties claimed of the list are
order-independent). -/
def sidCountPairs (accounts : List Win32Account) : List (Nat × Nat) :=
  (sidKeys accounts).dedup.map (fun k => (k, (sidKeys accounts).count k))

/-- The formatted `sid_counts` contents produced from a successful
`Win32_Account` query. -/
def sidCountsOf (accounts : List Win32Account) : List String :=
  (sidCountPairs accounts).map (fun p => formatSid p.1 p.2)

/-- The button-group block of `update`: if a button was clicked this
frame, set `active_data`, clear the matching list, and — when `wmi_con`
is present — repopulate it from the query result, pushing a single error
entry on failure.  Mirrors the three `if ui.button(..).clicked()` blocks. -/
def handleClick (s : LabApp) (inp : FrameInput) : LabApp :=
  match inp.click with
  | none => s
  | some Button.envVars =>
      let s1 := { s with active_data := ActiveData.EnvVars, env_vars := [] }
      match s1.wmi_con with
      | some _ =>
          match inp.envResult with
          | Except.ok envs => { s1 with env_vars := envs.map formatEnv }
          | Except.error e => { s1 with env_vars := s1.env_vars ++ [errorEntry e] }
      | none => s1
  | some Button.sidCounts =>
      let s1 := { s with active_data := ActiveData.SidCounts, sid_counts := [] }
      match s1.wmi_con with
      | some _ =>
          match inp.sidResult with
          | Except.ok accounts => { s1 with sid_counts := sidCountsOf accounts }
          | Except.error e => { s1 with sid_counts := s1.sid_counts ++ [errorEntry e] }
      | none => s1
  | some Button.busInfo =>
      let s1 := { s with active_data := ActiveData.BusInfo, bus_info := [] }
      match s1.wmi_con with
      | some _ =>
          match inp.busResult with
          | Except.ok buses => { s1 with bus_info := buses.map formatBus }
          | Except.error e => { s1 with bus_info := s1.bus_info ++ [errorEntry e] }
      | none => s1

/-- The placeholder label rendered while `active_data` is `None`. -/
def placeholderLine : String :=
  "Выберите категорию для отображения данных"

/-- The scroll-area body: the list selected by `active_data`, or the
single placeholder prompt. -/
def renderResults (s : LabApp) : List String :=
  match s.active_data with
  | ActiveData.EnvVars => s.env_vars
  | ActiveData.SidCounts => s.sid_counts
  | ActiveData.BusInfo => s.bus_info
  | ActiveData.None => [placeholderLine]

/-- What one frame rendered: the init-error label (if the frame returned
early), whether the button row and result area were reached, the lines
of the result area, and whether `init_wmi` was invoked this frame. -/
structure Render where
  initError : Option String
  buttonsShown : Bool
  resultLines : Option (List String)
  initAttempted : Bool
deriving DecidableEq, Repr

/-- One frame of `eframe::App::update` for `LabApp`: while `wmi_con` is
none, run `init_wmi` and return early (label, no buttons, no result
area) on failure; otherwise process the button row and render the result
area from the post-click state. -/
def update (s : LabApp) (inp : FrameInput) : LabApp × Render :=
  match s.wmi_con with
  | none =>
      match init_wmi s inp.initOutcome with
      | (s1, Except.error e) =>
          (s1, { initError := some ("Ошибка инициализации WMI: " ++ e),
                 buttonsShown := false, resultLines := none, initAttempted := true })
      | (s1, Except.ok _) =>
          let s2 := handleClick s1 inp
          (s2, { initError := none, buttonsShown := true,
                 resultLines := some (renderResults s2), initAttempted := true })
  | some _ =>
      let s2 := handleClick s inp
      (s2, { initError := none, buttonsShown := true,
             resultLines := some (renderResults s2), initAttempted := false })

/-- One frame together with the click it actually processed: a click
counts only when the frame reached the button row (in the GUI a button
can only be clicked while it is rendered). -/
def stepTrace (s : LabApp) (inp : FrameInput) : LabApp × Option Button :=
  let r := update s inp
  (r.1, if r.2.buttonsShown then inp.click else none)

/-- Run a sequence of frames from a state, collecting the processed
clicks in order. -/
def runTrace : LabApp → List FrameInput → LabApp × List Button
  | s, [] => (s, [])
  | s, inp :: rest =>
      let p := stepTrace s inp
      let q := runTrace p.1 rest
      (q.1, p.2.toList ++ q.2)

/-- The state after a sequence of frames. -/
def run (s : LabApp) (l : List FrameInput) : LabApp :=
  (runTrace s l).1

/-! Helper lemmas about counting. -/

theorem sum_map_indicator (d : List Nat) (a : Nat) :
    (d.map (fun k => if a == k then 1 else 0)).sum = d.count a := by
  induction d with
  | nil => rfl
  | cons x t ih =>
      simp only [List.map_cons, List.sum_cons, List.count_cons, ih]
      by_cases hxa : x = a
      · subst hxa; simp [Nat.add_comm]
      · simp [hxa, Ne.symm hxa]

theorem sum_map_add_distrib (d : List Nat) (f g : Nat → Nat) :
    (d.map (fun k => f k + g k)).sum = (d.map f).sum + (d.map g).sum := by
  induction d with
  | nil => rfl
  | cons x t ih =>
      simp only [List.map_cons, List.sum_cons, ih]
      omega

theorem sum_map_count_eq_length (l : List Nat) :
    ∀ d : List Nat, d.Nodup → (∀ x, x ∈ l → x ∈ d) →
      (d.map (fun k => l.count k)).sum = l.length := by
  induction l with
  | nil => intro d _ _; simp
  | cons a t ih =>
      intro d hnd hsub
      have hmem : a ∈ d := hsub a (List.mem_cons_self a t)
      have hstep : (d.map (fun k => (a :: t).count k)).sum
          = (d.map (fun k => t.count k + if a == k then 1 else 0)).sum := by
        simp only [List.count_cons]
      rw [hstep, sum_map_add_distrib, ih d hnd (fun x hx => hsub x (List.mem_cons_of_mem a hx)),
        sum_map_indicator, List.count_eq_one_of_mem hnd hmem, List.length_cons]

/-! Helper lemmas about one frame. -/

theorem update_wmi_some (s : LabApp) (inp : FrameInput) (h : Nat)
    (hcon : s.wmi_con = some h) :
    update s inp = (handleClick s inp,
      { initError := none, buttonsShown := true,
        resultLines := some (renderResults (handleClick s inp)), initAttempted := false }) := by
  simp [update, hcon]

theorem handleClick_sid_ok (s : LabApp) (inp : FrameInput) (h : Nat)
    (accounts : List Win32Account)
    (hcon : s.wmi_con = some h) (hclick : inp.click = some Button.sidCounts)
    (hq : inp.sidResult = Except.ok accounts) :
    handleClick s inp
      = { s with active_data := ActiveData.SidCounts, sid_counts := sidCountsOf accounts } := by
  simp [handleClick, hclick, hcon, hq]

theorem handleClick_none (s : LabApp) (inp : FrameInput) (hc : inp.click = none) :
    handleClick s inp = s := by
  simp [handleClick, hc]

theorem handleClick_active (s : LabApp) (inp : FrameInput) (b : Button)
    (hc : inp.click = some b) :
    (handleClick s inp).active_data = b.category := by
  cases b <;> cases hw : s.wmi_con <;>
    simp [handleClick, Button.category, hc, hw] <;> split <;> rfl

theorem handleClick_wmi_con (s : LabApp) (inp : FrameInput) :
    (handleClick s inp).wmi_con = s.wmi_con := by
  rcases hc : inp.click with _ | b
  · simp [handleClick, hc]
  · cases b <;> cases hw : s.wmi_con <;>
      simp [handleClick, hc, hw] <;> split <;> rfl

theorem handleClick_env_vars_eq (s : LabApp) (inp : FrameInput)
    (hc : inp.click ≠ some Button.envVars) :
    (handleClick s inp).env_vars = s.env_vars := by
  rcases hck : inp.click with _ | b
  · simp [handleClick, hck]
  · cases b
    · exact absurd hck hc
    · cases hw : s.wmi_con <;> simp [handleClick, hck, hw] <;> split <;> rfl
    · cases hw : s.wmi_con <;> simp [handleClick, hck, hw] <;> split <;> rfl

theorem handleClick_sid_counts_eq (s : LabApp) (inp : FrameInput)
    (hc : inp.click ≠ some Button.sidCounts) :
    (handleClick s inp).sid_counts = s.sid_counts := by
  rcases hck : inp.click with _ | b
  · simp [handleClick, hck]
  · cases b
    · cases hw : s.wmi_con <;> simp [handleClick, hck, hw] <;> split <;> rfl
    · exact absurd hck hc
    · cases hw : s.wmi_con <;> simp [handleClick, hck, hw] <;> split <;> rfl

theorem handleClick_bus_info_eq (s : LabApp) (inp : FrameInput)
    (hc : inp.click ≠ some Button.busInfo) :
    (handleClick s inp).bus_info = s.bus_info := by
  rcases hck : inp.click with _ | b
  · simp [handleClick, hck]
  · cases b
    · cases hw : s.wmi_con <;> simp [handleClick, hck, hw] <;> split <;> rfl
    · cases hw : s.wmi_con <;> simp [handleClick, hck, hw] <;> split <;> rfl
    · exact absurd hck hc

theorem update_fst (s : LabApp) (inp : FrameInput) :
    (update s inp).1 =
      match s.wmi_con, inp.initOutcome with
      | none, InitOutcome.comFail _ => s
      | none, InitOutcome.connFail _ => { s with com_lib := some () }
      | none, InitOutcome.ok h =>
          handleClick { s with com_lib := some (), wmi_con := some h } inp
      | some _, _ => handleClick s inp := by
  cases hcon : s.wmi_con <;> cases hio : inp.initOutcome <;>
    simp [update, init_wmi, hcon, hio]

theorem update_snd_buttons (s : LabApp) (inp : FrameInput) :
    (update s inp).2.buttonsShown
      = (s.wmi_con.isSome
          || (match inp.initOutcome with | InitOutcome.ok _ => true | _ => false)) := by
  cases hcon : s.wmi_con <;> cases hio : inp.initOutcome <;>
    simp [update, init_wmi, hcon, hio]

theorem update_initAttempted (t : LabApp) (inp : FrameInput) :
    (update t inp).2.initAttempted = t.wmi_con.isNone := by
  cases hcon : t.wmi_con <;> cases hio : inp.initOutcome <;>
    simp [update, init_wmi, hcon, hio]

theorem run_cons (s : LabApp) (inp : FrameInput) (rest : List FrameInput) :
    run s (inp :: rest) = run (update s inp).1 rest := by
  simp [run, runTrace, stepTrace]

theorem run_preserves_con (h : Nat) :
    ∀ (l : List FrameInput) (s : LabApp), s.wmi_con = some h →
      (run s l).wmi_con = some h := by
  intro l
  induction l with
  | nil => intro s hs; exact hs
  | cons inp rest ih =>
      intro s hs
      rw [run_cons]
      refine ih _ ?_
      rw [update_wmi_some s inp h hs]
      rw [handleClick_wmi_con]
      exact hs

theorem stepTrace_active (s : LabApp) (inp : FrameInput) :
    ((stepTrace s inp).1).active_data
      = ((stepTrace s inp).2).elim s.active_data Button.category := by
  show ((update s inp).1).active_data
      = (if (update s inp).2.buttonsShown then inp.click else none).elim
          s.active_data Button.category
  cases hcon : s.wmi_con with
  | some h =>
      rw [update_wmi_some s inp h hcon]
      rcases hc : inp.click with _ | b
      · simp [handleClick_none s inp hc]
      · simp [handleClick_active s inp b hc]
  | none =>
      cases hio : inp.initOutcome with
      | comFail e => simp [update, init_wmi, hcon, hio]
      | connFail e => simp [update, init_wmi, hcon, hio]
      | ok h =>
          rcases hc : inp.click with _ | b
          · simp [update, init_wmi, hcon, hio, handleClick_none _ _ hc]
          · simp [update, init_wmi, hcon, hio, handleClick_active _ _ b hc]

theorem runTrace_active :
    ∀ (l : List FrameInput) (s : LabApp),
      ((runTrace s l).1).active_data
        = ((runTrace s l).2).getLast?.elim s.active_data Button.category := by
  intro l
  induction l with
  | nil => intro s; rfl
  | cons inp rest ih =>
      intro s
      show ((runTrace (stepTrace s inp).1 rest).1).active_data
          = ((stepTrace s inp).2.toList
              ++ (runTrace (stepTrace s inp).1 rest).2).getLast?.elim
              s.active_data Button.category
      rw [ih (stepTrace s inp).1, stepTrace_active s inp]
      rcases htail : (runTrace (stepTrace s inp).1 rest).2 with _ | ⟨c, cs⟩
      · cases ho : (stepTrace s inp).2 <;> simp [ho]
      · rw [List.getLast?_append_cons]
        cases hgl : (c :: cs).getLast? with
        | none => simp [List.getLast?_eq_none_iff] at hgl
        | some d => simp [hgl]

theorem run_no_click_active (a : ActiveData) :
    ∀ (l : List FrameInput) (s : LabApp), (∀ inp, inp ∈ l → inp.click = none) →
      s.active_data = a → (run s l).active_data = a := by
  intro l
  induction l with
  | nil => intro s _ hs; exact hs
  | cons inp rest ih =>
      intro s hnc hs
      rw [run_cons]
      refine ih _ (fun i hi => hnc i (List.mem_cons_of_mem _ hi)) ?_
      have hc := hnc inp (List.mem_cons_self _ _)
      rw [update_fst]
      cases hcon : s.wmi_con <;> cases hio : inp.initOutcome <;>
        simp [hcon, hio, handleClick_none, hc, hs]

theorem run_no_click_lists :
    ∀ (l : List FrameInput) (s : LabApp), (∀ inp, inp ∈ l → inp.click = none) →
      (run s l).env_vars = s.env_vars
      ∧ (run s l).sid_counts = s.sid_counts
      ∧ (run s l).bus_info = s.bus_info := by
  intro l
  induction l with
  | nil => intro s _; exact ⟨rfl, rfl, rfl⟩
  | cons inp rest ih =>
      intro s hnc
      rw [run_cons]
      have hc := hnc inp (List.mem_cons_self _ _)
      have hstep : (update s inp).1.env_vars = s.env_vars
          ∧ (update s inp).1.sid_counts = s.sid_counts
          ∧ (update s inp).1.bus_info = s.bus_info := by
        rw [update_fst]
        cases hcon : s.wmi_con <;> cases hio : inp.initOutcome <;>
          simp [hcon, hio, handleClick_none, hc]
      obtain ⟨h1, h2, h3⟩ := ih (update s inp).1 (fun i hi => hnc i (List.mem_cons_of_mem _ hi))
      exact ⟨h1.trans hstep.1, h2.trans hstep.2.1, h3.trans hstep.2.2⟩

/-! Claim theorems. -/

/-- C1: after a successful 'Статистика SID' button click, `sid_counts` is
the formatted count list over the distinct `SIDType` values of the
returned accounts: each `SIDType` present among the accounts has exactly
one entry, each entry's count is the number of returned accounts with
that type, and the counts sum to the total number of returned accounts. -/
theorem sid_stats_counts_correct (s : LabApp) (inp : FrameInput) (h : Nat)
    (accounts : List Win32Account)
    (hcon : s.wmi_con = some h) (hclick : inp.click = some Button.sidCounts)
    (hq : inp.sidResult = Except.ok accounts) :
    (update s inp).1.sid_counts
        = (sidCountPairs accounts).map (fun p => formatSid p.1 p.2)
    ∧ (∀ k, k ∈ sidKeys accounts →
        ((sidCountPairs accounts).filter (fun p => p.1 == k)).length = 1)
    ∧ (∀ p, p ∈ sidCountPairs accounts →
        p.2 = (accounts.filter (fun a => a.SIDType == p.1)).length)
    ∧ ((sidCountPairs accounts).map (fun p => p.2)).sum = accounts.length := by
  refine ⟨?_, ?_, ?_, ?_⟩
  · rw [update_wmi_some s inp h hcon, handleClick_sid_ok s inp h accounts hcon hclick hq]
    rfl
  · intro k hk
    have hfil : (sidCountPairs accounts).filter (fun p => p.1 == k)
        = ((sidKeys accounts).dedup.filter (fun x => x == k)).map
            (fun k' => (k', (sidKeys accounts).count k')) := by
      rw [sidCountPairs, List.filter_map]
      rfl
    rw [hfil, List.length_map, ← List.countP_eq_length_filter, ← List.count,
      List.count_eq_one_of_mem (List.nodup_dedup _) (List.mem_dedup.mpr hk)]
  · intro p hp
    obtain ⟨k', _, rfl⟩ := List.mem_map.1 hp
    show (sidKeys accounts).count k' = _
    rw [List.count, sidKeys, List.countP_map, List.countP_eq_length_filter]
    rfl
  · have hmm : (sidCountPairs accounts).map (fun p => p.2)
        = (sidKeys accounts).dedup.map (fun k => (sidKeys accounts).count k) := by
      rw [sidCountPairs, List.map_map]
      rfl
    rw [hmm, sum_map_count_eq_length _ _ (List.nodup_dedup _)
      (fun x hx => List.mem_dedup.mpr hx), sidKeys, List.length_map]

/-- Concrete state for exercising the SID-statistics theorems. -/
def sWit : LabApp := { LabApp.default with wmi_con := some 0 }

/-- Concrete account rows for exercising the SID-statistics theorems. -/
def accWit : List Win32Account :=
  [{ SIDType := 1, Caption := "a" }, { SIDType := 1, Caption := "b" },
   { SIDType := 2, Caption := "c" }]

/-- Concrete frame input: a SID-statistics click with a successful query. -/
def inpWitSid : FrameInput :=
  { initOutcome := InitOutcome.ok 0, click := some Button.sidCounts,
    envResult := Except.ok [], sidResult := Except.ok accWit, busResult := Except.ok [] }

/-- C1 witness at a concrete account list. -/
theorem sid_stats_counts_correct_witness :
    (update sWit inpWitSid).1.sid_counts = ["Тип 1: 2", "Тип 2: 1"]
    ∧ ((sidCountPairs accWit).filter (fun p => p.1 == 1)).length = 1
    ∧ ((sidCountPairs accWit).map (fun p => p.2)).sum = accWit.length := by
  have hmain := sid_stats_counts_correct sWit inpWitSid 0 accWit rfl rfl rfl
  exact ⟨by rw [hmain.1]; rfl, hmain.2.1 1 (by decide), hmain.2.2.2⟩

/-- C3: a category click clears the prior list and repopulates it purely
from this click's query result: the new list is a function of the query
result alone (formatted rows on success, a single error entry on
failure), so no entry from a previous click survives. -/
theorem click_clears_then_repopulates (s : LabApp) (inp : FrameInput) (h : Nat)
    (b : Button) (hcon : s.wmi_con = some h) (hclick : inp.click = some b) :
    (b = Button.envVars →
        (update s inp).1.env_vars
          = match inp.envResult with
            | Except.ok envs => envs.map formatEnv
            | Except.error e => [errorEntry e])
    ∧ (b = Button.sidCounts →
        (update s inp).1.sid_counts
          = match inp.sidResult with
            | Except.ok accounts => sidCountsOf accounts
            | Except.error e => [errorEntry e])
    ∧ (b = Button.busInfo →
        (update s inp).1.bus_info
          = match inp.busResult with
            | Except.ok buses => buses.map formatBus
            | Except.error e => [errorEntry e]) := by
  rw [update_wmi_some s inp h hcon]
  refine ⟨fun hb => ?_, fun hb => ?_, fun hb => ?_⟩ <;> subst hb
  · cases hres : inp.envResult <;> simp [handleClick, hclick, hcon, hres]
  · cases hres : inp.sidResult <;> simp [handleClick, hclick, hcon, hres]
  · cases hres : inp.busResult <;> simp [handleClick, hclick, hcon, hres]

/-- Concrete frame input: an environment-variables click whose query fails. -/
def inpWitEnvErr : FrameInput :=
  { initOutcome := InitOutcome.ok 0, click := some Button.envVars,
    envResult := Except.error "boom", sidResult := Except.ok [], busResult := Except.ok [] }

/-- C3 witness at a concrete failing environment query. -/
theorem click_clears_then_repopulates_witness :
    (update sWit inpWitEnvErr).1.env_vars = [errorEntry "boom"] := by
  have hmain := click_clears_then_repopulates sWit inpWitEnvErr 0 Button.envVars rfl rfl
  exact (hmain.1 rfl).trans rfl

/-- C4: a click on one category's button leaves the other two result
lists unchanged, and a frame with no click leaves all three unchanged. -/
theorem click_preserves_other_lists (s : LabApp) (inp : FrameInput) :
    (inp.click = none →
        (update s inp).1.env_vars = s.env_vars
        ∧ (update s inp).1.sid_counts = s.sid_counts
        ∧ (update s inp).1.bus_info = s.bus_info)
    ∧ (inp.click = some Button.envVars →
        (update s inp).1.sid_counts = s.sid_counts
        ∧ (update s inp).1.bus_info = s.bus_info)
    ∧ (inp.click = some Button.sidCounts →
        (update s inp).1.env_vars = s.env_vars
        ∧ (update s inp).1.bus_info = s.bus_info)
    ∧ (inp.click = some Button.busInfo →
        (update s inp).1.env_vars = s.env_vars
        ∧ (update s inp).1.sid_counts = s.sid_counts) := by
  refine ⟨fun hc => ?_, fun hc => ?_, fun hc => ?_, fun hc => ?_⟩ <;>
    rw [update_fst] <;>
    cases hcon : s.wmi_con <;> cases hio : inp.initOutcome <;>
      simp [hcon, hio, handleClick_none, handleClick_env_vars_eq,
        handleClick_sid_counts_eq, handleClick_bus_info_eq, hc]

/-- Concrete frame input: a frame with no click. -/
def inpWitNoClick : FrameInput :=
  { initOutcome := InitOutcome.ok 0, click := none,
    envResult := Except.ok [], sidResult := Except.ok [], busResult := Except.ok [] }

/-- C4 witness: a SID click leaves the other lists alone, and a no-click
frame leaves all three alone. -/
theorem click_preserves_other_lists_witness :
    ((update sWit inpWitSid).1.env_vars = sWit.env_vars
      ∧ (update sWit inpWitSid).1.bus_info = sWit.bus_info)
    ∧ ((update sWit inpWitNoClick).1.env_vars = sWit.env_vars
      ∧ (update sWit inpWitNoClick).1.sid_counts = sWit.sid_counts
      ∧ (update sWit inpWitNoClick).1.bus_info = sWit.bus_info) := by
  exact ⟨(click_preserves_other_lists sWit inpWitSid).2.2.1 rfl,
    (click_preserves_other_lists sWit inpWitNoClick).1 rfl⟩

/-- C5: once the connection is present, a click whose query fails leaves
exactly one entry — the formatted error string — in the corresponding
list, and the frame still completes: the button row is rendered and the
result area is rendered from the post-click state. -/
theorem failed_query_single_error (s : LabApp) (inp : FrameInput) (h : Nat) (e : String)
    (hcon : s.wmi_con = some h) :
    (inp.click = some Button.envVars → inp.envResult = Except.error e →
        (update s inp).1.env_vars = [errorEntry e])
    ∧ (inp.click = some Button.sidCounts → inp.sidResult = Except.error e →
        (update s inp).1.sid_counts = [errorEntry e])
    ∧ (inp.click = some Button.busInfo → inp.busResult = Except.error e →
        (update s inp).1.bus_info = [errorEntry e])
    ∧ (update s inp).2.buttonsShown = true
    ∧ (update s inp).2.resultLines = some (renderResults (update s inp).1) := by
  rw [update_wmi_some s inp h hcon]
  refine ⟨fun hc hres => ?_, fun hc hres => ?_, fun hc hres => ?_, rfl, rfl⟩ <;>
    simp [handleClick, hc, hcon, hres]

/-- C5 witness at a concrete failing environment query. -/
theorem failed_query_single_error_witness :
    (update sWit inpWitEnvErr).1.env_vars = [errorEntry "boom"]
    ∧ (update sWit inpWitEnvErr).2.buttonsShown = true := by
  have hmain := failed_query_single_error sWit inpWitEnvErr 0 "boom" rfl
  exact ⟨hmain.1 rfl rfl, hmain.2.2.2.1⟩

/-- C6: `active_data` is sticky — a frame whose click is not processed
(no click, or the frame returned early before the button row) leaves it
unchanged, and a processed click sets it to the clicked button's
category. -/
theorem active_data_sticky (s : LabApp) (inp : FrameInput) :
    (inp.click = none → (update s inp).1.active_data = s.active_data)
    ∧ ((update s inp).2.buttonsShown = false →
        (update s inp).1.active_data = s.active_data)
    ∧ (∀ b, inp.click = some b → (update s inp).2.buttonsShown = true →
        (update s inp).1.active_data = Button.category b) := by
  refine ⟨fun hc => ?_, fun hbs => ?_, fun b hc hbs => ?_⟩
  · rw [update_fst]
    cases hcon : s.wmi_con <;> cases hio : inp.initOutcome <;>
      simp [hcon, hio, handleClick_none, hc]
  · rw [update_snd_buttons] at hbs
    rw [update_fst]
    cases hcon : s.wmi_con <;> cases hio : inp.initOutcome <;>
      simp [hcon, hio] at hbs ⊢
  · rw [update_snd_buttons] at hbs
    rw [update_fst]
    cases hcon : s.wmi_con <;> cases hio : inp.initOutcome <;>
      simp [hcon, hio, handleClick_active _ _ b hc] at hbs ⊢

/-- C6 witness: a no-click frame keeps `active_data`, and a processed
SID click sets it to `SidCounts`. -/
theorem active_data_sticky_witness :
    (update sWit inpWitNoClick).1.active_data = sWit.active_data
    ∧ (update sWit inpWitSid).1.active_data = Button.category Button.sidCounts := by
  exact ⟨(active_data_sticky sWit inpWitNoClick).1 rfl,
    (active_data_sticky sWit inpWitSid).2.2 Button.sidCounts rfl rfl⟩

/-- C7: the connection handle is created lazily at most once:
`init_wmi` is invoked in a frame exactly when `wmi_con` is none, and
once `wmi_con` holds a handle, every later frame — over any sequence of
frames — keeps that same handle. -/
theorem wmi_con_lazy_once (s : LabApp) (h : Nat) (hcon : s.wmi_con = some h) :
    (∀ inp : FrameInput, (update s inp).1.wmi_con = some h
        ∧ (update s inp).2.initAttempted = false)
    ∧ (∀ l : List FrameInput, (run s l).wmi_con = some h)
    ∧ (∀ (t : LabApp) (inp : FrameInput),
        (update t inp).2.initAttempted = t.wmi_con.isNone) := by
  refine ⟨fun inp => ?_, fun l => run_preserves_con h l s hcon,
    fun t inp => update_initAttempted t inp⟩
  rw [update_wmi_some s inp h hcon]
  exact ⟨(handleClick_wmi_con s inp).trans hcon, rfl⟩

/-- C7 witness: over a concrete two-frame run the handle persists, and
no frame re-attempts initialization. -/
theorem wmi_con_lazy_once_witness :
    (run sWit [inpWitNoClick, inpWitSid]).wmi_con = some 0
    ∧ (update sWit inpWitNoClick).2.initAttempted = false := by
  have hmain := wmi_con_lazy_once sWit 0 rfl
  exact ⟨hmain.2.1 [inpWitNoClick, inpWitSid], (hmain.1 inpWitNoClick).2⟩

/-- C8: a failed connection attempt is displayed and is not fatal: the
frame shows the init-error label, renders neither buttons nor result
area, leaves `wmi_con` at none, and the next frame attempts
initialization again. -/
theorem init_failure_nonfatal (s : LabApp) (inp inp2 : FrameInput) (e : String)
    (hcon : s.wmi_con = none)
    (hfail : inp.initOutcome = InitOutcome.comFail e
        ∨ inp.initOutcome = InitOutcome.connFail e) :
    (update s inp).2.initError = some ("Ошибка инициализации WMI: " ++ e)
    ∧ (update s inp).2.buttonsShown = false
    ∧ (update s inp).2.resultLines = none
    ∧ (update s inp).1.wmi_con = none
    ∧ (update (update s inp).1 inp2).2.initAttempted = true := by
  rcases hfail with hio | hio
  all_goals
    refine ⟨by simp [update, init_wmi, hcon, hio], by simp [update, init_wmi, hcon, hio],
      by simp [update, init_wmi, hcon, hio], by simp [update, init_wmi, hcon, hio], ?_⟩
  all_goals
    have h1 : (update s inp).1.wmi_con = none := by simp [update, init_wmi, hcon, hio]
    rw [update_initAttempted, h1]
    rfl

/-- Concrete frame input: a frame whose COM initialization fails. -/
def inpWitInitFail : FrameInput :=
  { initOutcome := InitOutcome.comFail "denied", click := none,
    envResult := Except.ok [], sidResult := Except.ok [], busResult := Except.ok [] }

/-- C8 witness at a concrete failing initialization. -/
theorem init_failure_nonfatal_witness :
    (update LabApp.default inpWitInitFail).2.buttonsShown = false
    ∧ (update LabApp.default inpWitInitFail).1.wmi_con = none
    ∧ (update (update LabApp.default inpWitInitFail).1 inpWitInitFail).2.initAttempted
        = true := by
  have hmain := init_failure_nonfatal LabApp.default inpWitInitFail inpWitInitFail
    "denied" rfl (Or.inl rfl)
  exact ⟨hmain.2.1, hmain.2.2.2.1, hmain.2.2.2.2⟩

/-- Concrete state with a populated environment list being displayed. -/
def sWitShow : LabApp :=
  { com_lib := some (), wmi_con := some 0, env_vars := ["PATH: C"], sid_counts := [],
    bus_info := [], active_data := ActiveData.EnvVars }

/-- C2: the result area always renders exactly the list selected by the
current `active_data` discriminator, completed frames render the result
area from the post-click state, and after any sequence of frames from
the initial state `active_data` equals the category of the last
processed button click (`None` if there has been none). -/
theorem display_matches_last_click (l : List FrameInput) :
    ((runTrace LabApp.default l).1).active_data
      = ((runTrace LabApp.default l).2).getLast?.elim ActiveData.None Button.category
    ∧ (∀ t : LabApp,
        (t.active_data = ActiveData.EnvVars → renderResults t = t.env_vars)
        ∧ (t.active_data = ActiveData.SidCounts → renderResults t = t.sid_counts)
        ∧ (t.active_data = ActiveData.BusInfo → renderResults t = t.bus_info))
    ∧ (∀ (t : LabApp) (inp : FrameInput), (update t inp).2.buttonsShown = true →
        (update t inp).2.resultLines = some (renderResults (update t inp).1)) := by
  refine ⟨runTrace_active l LabApp.default,
    fun t => ⟨fun h1 => by simp [renderResults, h1],
      fun h2 => by simp [renderResults, h2], fun h3 => by simp [renderResults, h3]⟩,
    fun t inp hb => ?_⟩
  cases hcon : t.wmi_con with
  | some h =>
      rw [update_wmi_some t inp h hcon]
  | none =>
      cases hio : inp.initOutcome with
      | ok h => simp [update, init_wmi, hcon, hio]
      | comFail e => rw [update_snd_buttons] at hb; simp [hcon, hio] at hb
      | connFail e => rw [update_snd_buttons] at hb; simp [hcon, hio] at hb

/-- C2 witness: a concrete no-click run keeps the discriminator at
`None`, and a concrete `EnvVars` state renders its environment list. -/
theorem display_matches_last_click_witness :
    ((runTrace LabApp.default [inpWitNoClick]).1).active_data = ActiveData.None
    ∧ renderResults sWitShow = sWitShow.env_vars := by
  have hmain := display_matches_last_click [inpWitNoClick]
  exact ⟨hmain.1.trans rfl, ((hmain.2.1 sWitShow).1) rfl⟩

/-- C9: in the initial state `active_data` is `None` and the three
result lists are empty; over any frames without a click the lists stay
as they were and the result area renders the single placeholder prompt. -/
theorem initial_state_placeholder (l : List FrameInput)
    (hnc : ∀ inp, inp ∈ l → inp.click = none) :
    LabApp.default.active_data = ActiveData.None
    ∧ LabApp.default.env_vars = [] ∧ LabApp.default.sid_counts = []
    ∧ LabApp.default.bus_info = []
    ∧ (run LabApp.default l).active_data = ActiveData.None
    ∧ (run LabApp.default l).env_vars = []
    ∧ (run LabApp.default l).sid_counts = []
    ∧ (run LabApp.default l).bus_info = []
    ∧ renderResults (run LabApp.default l) = [placeholderLine] := by
  have hact := run_no_click_active ActiveData.None l LabApp.default hnc rfl
  obtain ⟨h1, h2, h3⟩ := run_no_click_lists l LabApp.default hnc
  exact ⟨rfl, rfl, rfl, rfl, hact, h1, h2, h3, by simp [renderResults, hact]⟩

/-- C9 witness at a concrete no-click frame sequence. -/
theorem initial_state_placeholder_witness :
    (run LabApp.default [inpWitNoClick]).active_data = ActiveData.None
    ∧ renderResults (run LabApp.default [inpWitNoClick]) = [placeholderLine] := by
  have hmain := initial_state_placeholder [inpWitNoClick]
    (fun i hi => by rw [List.mem_singleton] at hi; subst hi; rfl)
  exact ⟨hmain.2.2.2.2.1, hmain.2.2.2.2.2.2.2.2⟩

/-- C10: after a successful SID query click, the count list has pairwise
distinct SID types (each `SIDType` contributes at most one entry) and
every count is at least 1. -/
theorem sid_counts_nodup_positive (s : LabApp) (inp : FrameInput) (h : Nat)
    (accounts : List Win32Account)
    (hcon : s.wmi_con = some h) (hclick : inp.click = some Button.sidCounts)
    (hq : inp.sidResult = Except.ok accounts) :
    (update s inp).1.sid_counts
        = (sidCountPairs accounts).map (fun p => formatSid p.1 p.2)
    ∧ ((sidCountPairs accounts).map (fun p => p.1)).Nodup
    ∧ ∀ p, p ∈ sidCountPairs accounts → 1 ≤ p.2 := by
  refine ⟨?_, ?_, ?_⟩
  · rw [update_wmi_some s inp h hcon, handleClick_sid_ok s inp h accounts hcon hclick hq]
    rfl
  · have hfst : (sidCountPairs accounts).map (fun p => p.1) = (sidKeys accounts).dedup := by
      rw [sidCountPairs, List.map_map]
      exact List.map_id _
    rw [hfst]
    exact List.nodup_dedup _
  · intro p hp
    obtain ⟨k', hk', rfl⟩ := List.mem_map.1 hp
    have : k' ∈ sidKeys accounts := List.mem_dedup.mp hk'
    exact List.count_pos_iff.mpr this

/-- C10 witness at a concrete account list. -/
theorem sid_counts_nodup_positive_witness :
    ((sidCountPairs accWit).map (fun p => p.1)).Nodup
    ∧ ∀ p, p ∈ sidCountPairs accWit → 1 ≤ p.2 := by
  have hmain := sid_counts_nodup_positive sWit inpWitSid 0 accWit rfl rfl rfl
  exact ⟨hmain.2.1, hmain.2.2⟩

end WmiLab
